import Mathlib

/-!
# Verification of the `cars` MercadoLibre listing scraper

A shallow embedding, in Lean 4, of the extraction / pagination / dedup /
storage core of the repository, together with theorems settling the frozen
claims about its specification.

Embedded sources:
* `MercadoLibreAutosScraper` (src/unnamed/part_004, duplicated in
  src/frontend/src/App.tsx): the record extractor state machine
  (`startProduct`, `addTitle`, `setLink`, `addPrice`, `setSeller`,
  `setThumbnail`, `finalizeCurrentProduct`, `isValidCarListing`).
* `detectNextPage` (src/frontend/src/App.tsx): the next-page decision.
* `handleInfiniteSearch` (src/frontend/src/App.tsx): the paginated session
  loop with its time budget, its termination heuristics and its final
  deduplication pass.
* `LocalMercadoLibreScraper.scrapeSearch` and `removeDuplicates`
  (src/unnamed/part_001): the local session loop with a page-count
  ceiling, the detail-page enrichment merge, and the seen-set dedup.
* `CarsAPI.storeCars` (src/frontend/src/App.tsx): the merge-on-store path.

JavaScript machine floats on these paths only ever hold values produced by
`parseFloat` on decimal digit strings; they are modelled as exact rationals.
JavaScript strings are modelled as Lean `String`s, `null`-able fields as
`Option`, and JS `Set` seen-sets as lists used only for membership.
-/

namespace Cars

/-! ## Small string machinery (JS semantics) -/

/-- Matches a JS regex `\s` / `String.prototype.trim` whitespace character
(ECMA-262 WhiteSpace ∪ LineTerminator). -/
def isJsWs (c : Char) : Bool :=
  let n := c.toNat
  n == 9 || n == 10 || n == 11 || n == 12 || n == 13 || n == 32 ||
  n == 160 || n == 0x1680 || (0x2000 ≤ n && n ≤ 0x200A) ||
  n == 0x2028 || n == 0x2029 || n == 0x202F || n == 0x205F ||
  n == 0x3000 || n == 0xFEFF

/-- JS `String.prototype.trim`: strip whitespace from both ends. -/
def jsTrim (s : String) : String :=
  ⟨((s.toList.dropWhile isJsWs).reverse.dropWhile isJsWs).reverse⟩

/-- Does `pat` occur at the very start of `l`? (helper for `includes`). -/
def headMatch : List Char → List Char → Bool
  | [], _ => true
  | _ :: _, [] => false
  | p :: ps, c :: cs => p == c && headMatch ps cs

/-- Does `pat` occur anywhere in `l`? (helper for `includes`). -/
def listHas (pat : List Char) : List Char → Bool
  | [] => headMatch pat []
  | c :: cs => headMatch pat (c :: cs) || listHas pat cs

/-- JS `a.includes(b)`: substring containment. -/
def strIncludes (a b : String) : Bool :=
  listHas b.toList a.toList

/-- JS `String.prototype.toLowerCase` (ASCII case range, which covers every
keyword the scraper compares against). -/
def lowerStr (s : String) : String :=
  ⟨s.toList.map Char.toLower⟩

/-- Decimal digit test (JS `\d`). -/
def isDigitCh (c : Char) : Bool := '0' ≤ c && c ≤ '9'

/-- Numeric value of a (possibly empty) list of decimal digits. -/
def digitsToNat : List Char → Nat
  | [] => 0
  | c :: cs => (c.toNat - '0'.toNat) * 10 ^ cs.length + digitsToNat cs

end Cars

namespace Cars

/-! ## The record extractor: `MercadoLibreAutosScraper` (src/unnamed/part_004)

The class is duplicated verbatim in src/frontend/src/App.tsx except for
`setSeller`/`setThumbnail`/`getStats`; the part_004 variants are embedded.
`price.amount` (a JS float set from `parseFloat` of decimal strings) is
modelled as `ℚ`; nullable fields as `Option`. -/

/-- One car record, mirroring the `CarProduct` shape built by `startProduct`. -/
structure CarProduct where
  id : Option String
  title : String
  priceCurrency : String
  priceAmount : ℚ
  year : Option Nat
  kilometers : Option ℚ
  location : String
  link : String
  thumbnail : String
  description : String
  publishedDate : Option String
  sellerType : String
  sellerName : String
  features : List String
deriving Repr, DecidableEq

/-- The fresh record literal assigned by `startProduct`. -/
def emptyCarProduct : CarProduct :=
  { id := none, title := "", priceCurrency := "$", priceAmount := 0,
    year := none, kilometers := none, location := "", link := "",
    thumbnail := "", description := "", publishedDate := none,
    sellerType := "", sellerName := "", features := [] }

/-- Mutable fields of `MercadoLibreAutosScraper`; `limit = none` models the
JS `Infinity` limit. -/
structure Scraper where
  products : List CarProduct
  limit : Option Nat
  currentProduct : Option CarProduct
  productCount : Nat
deriving Repr, DecidableEq

/-- The constructor `new MercadoLibreAutosScraper(limit)`. -/
def mkScraper (limit : Option Nat) : Scraper :=
  { products := [], limit := limit, currentProduct := none, productCount := 0 }

/-- Brand keywords of `isValidCarListing`. -/
def carBrands : List String :=
  ["toyota", "ford", "chevrolet", "volkswagen", "fiat",
   "honda", "nissan", "peugeot", "renault", "hyundai"]

/-- Car-word keywords of `isValidCarListing`. -/
def carWords : List String := ["cv", "sedan", "hatchback", "suv", "pickup"]

/-- `isValidCarListing(product)`: brand keyword OR car word OR autos-domain
link (the JS `product.link &&` truthiness guard is the `!= ""` conjunct). -/
def isValidCarListing (p : CarProduct) : Bool :=
  let title := lowerStr p.title
  let hasCarBrand := carBrands.any (fun b => strIncludes title b)
  let hasCarWords := carWords.any (fun w => strIncludes title w)
  let hasValidLink := p.link != "" && strIncludes p.link "autos.mercadolibre.com.ar"
  hasCarBrand || hasCarWords || hasValidLink

/-- `this.limit === Infinity || this.products.length < this.limit`. -/
def limitAllows : Option Nat → Nat → Bool
  | none, _ => true
  | some n, len => len < n

/-- `finalizeCurrentProduct()`: trims the in-progress title (the mutation is
kept on `currentProduct`, which the source never clears) and pushes a copy
onto `products` when title, link, limit and the validity predicate allow. -/
def finalizeCurrentProduct (s : Scraper) : Scraper :=
  match s.currentProduct with
  | none => s
  | some p0 =>
    let p := { p0 with title := jsTrim p0.title }
    let s1 := { s with currentProduct := some p }
    if p.title != "" && p.link != "" && limitAllows s1.limit s1.products.length then
      if isValidCarListing p then
        { s1 with products := s1.products ++ [p] }
      else s1
    else s1

/-- Shared tail of `startProduct()` after its limit guard. -/
def startProductGo (s : Scraper) : Scraper :=
  let s1 := finalizeCurrentProduct s
  { s1 with currentProduct := some emptyCarProduct, productCount := s1.productCount + 1 }

/-- `startProduct()`: refuses once `productCount` reaches a finite limit;
otherwise finalizes the in-progress record and starts a fresh one. -/
def startProduct (s : Scraper) : Scraper :=
  match s.limit with
  | some n => if s.productCount ≥ n then s else startProductGo s
  | none => startProductGo s

/-- The navigation-noise blocklist of `isValidTitleText`. -/
def invalidTitleTexts : List String :=
  ["mercado libre", "acerca de", "otros sitios", "ayuda", "mi cuenta",
   "suscripciones", "temporadas", "categorías", "ofertas", "cupones",
   "vender", "buscar", "filtros", "ordenar", "anterior", "siguiente"]

/-- `isValidTitleText(text)`. -/
def isValidTitleText (text : String) : Bool :=
  let textLower := lowerStr text
  !(invalidTitleTexts.any (fun t => strIncludes textLower t)) && text.length > 2

/-- `addTitle(text)`. -/
def addTitle (s : Scraper) (text : String) : Scraper :=
  match s.currentProduct with
  | none => s
  | some p =>
    if text != "" && jsTrim text != "" then
      let cleanText := jsTrim text
      if isValidTitleText cleanText then
        { s with currentProduct := some { p with title := p.title ++ cleanText ++ " " } }
      else s
    else s

/-- Leftmost match of `/MLA-?(\d+)/i` at the head of the list, returning the
captured digits. -/
def mlaHere (l : List Char) : Option (List Char) :=
  match l with
  | c1 :: c2 :: c3 :: rest =>
    if c1.toLower == 'm' && c2.toLower == 'l' && c3.toLower == 'a' then
      match rest with
      | [] => none
      | r :: r2 =>
        if r == '-' then
          let ds := r2.takeWhile isDigitCh
          if ds.isEmpty then none else some ds
        else
          let ds := (r :: r2).takeWhile isDigitCh
          if ds.isEmpty then none else some ds
    else none
  | _ => none

/-- Scan for `/MLA-?(\d+)/i` (id pattern 1). -/
def scanMla : List Char → Option (List Char)
  | [] => none
  | c :: cs =>
    match mlaHere (c :: cs) with
    | some d => some d
    | none => scanMla cs

/-- Head match for `/\/p\/MLA(\d+)/i` (id pattern 2). -/
def pMlaHere (l : List Char) : Option (List Char) :=
  match l with
  | c1 :: c2 :: c3 :: c4 :: c5 :: c6 :: rest =>
    if c1 == '/' && c2.toLower == 'p' && c3 == '/' && c4.toLower == 'm' &&
       c5.toLower == 'l' && c6.toLower == 'a' then
      let ds := rest.takeWhile isDigitCh
      if ds.isEmpty then none else some ds
    else none
  | _ => none

/-- Scan for `/\/p\/MLA(\d+)/i`. -/
def scanPMla : List Char → Option (List Char)
  | [] => none
  | c :: cs =>
    match pMlaHere (c :: cs) with
    | some d => some d
    | none => scanPMla cs

/-- Head match for `/\/(\d+)[?#]/` (id pattern 3). -/
def slashDigitsMarkHere (l : List Char) : Option (List Char) :=
  match l with
  | c :: rest =>
    if c == '/' then
      let ds := rest.takeWhile isDigitCh
      match rest.drop ds.length with
      | m :: _ => if !ds.isEmpty && (m == '?' || m == '#') then some ds else none
      | [] => none
    else none
  | [] => none

/-- Scan for `/\/(\d+)[?#]/`. -/
def scanSlashDigitsMark : List Char → Option (List Char)
  | [] => none
  | c :: cs =>
    match slashDigitsMarkHere (c :: cs) with
    | some d => some d
    | none => scanSlashDigitsMark cs

/-- Head match for `/\/(\d+)$/` (id pattern 4). -/
def slashDigitsEndHere (l : List Char) : Option (List Char) :=
  match l with
  | c :: rest =>
    if c == '/' then
      let ds := rest.takeWhile isDigitCh
      if !ds.isEmpty && rest.drop ds.length = [] then some ds else none
    else none
  | [] => none

/-- Scan for `/\/(\d+)$/`. -/
def scanSlashDigitsEnd : List Char → Option (List Char)
  | [] => none
  | c :: cs =>
    match slashDigitsEndHere (c :: cs) with
    | some d => some d
    | none => scanSlashDigitsEnd cs

/-- The ordered id-pattern list of `setLink`: first match wins. -/
def extractId (href : String) : Option String :=
  let l := href.toList
  match scanMla l with
  | some d => some ⟨d⟩
  | none =>
    match scanPMla l with
    | some d => some ⟨d⟩
    | none =>
      match scanSlashDigitsMark l with
      | some d => some ⟨d⟩
      | none =>
        match scanSlashDigitsEnd l with
        | some d => some ⟨d⟩
        | none => none

/-- `setLink(href)`. -/
def setLink (s : Scraper) (href : String) : Scraper :=
  match s.currentProduct with
  | none => s
  | some p =>
    if href != "" &&
       (strIncludes href "autos.mercadolibre.com.ar" || strIncludes href "/MLA-" ||
        (strIncludes href "mercadolibre.com.ar" && !strIncludes href "hp.mercadolibre.com")) then
      if p.link == "" || strIncludes href "autos.mercadolibre.com.ar" then
        let p1 := { p with link := href }
        let p2 := match extractId href with
                  | some i => { p1 with id := some i }
                  | none => p1
        { s with currentProduct := some p2 }
      else s
    else s

end Cars

namespace Cars

/-! ### `addPrice` and its number parsing -/

/-- Character class of the amount regex `/[\d.,]+/`. -/
def isPriceChar (c : Char) : Bool := isDigitCh c || c == '.' || c == ','

/-- First (leftmost, maximal) match of `/[\d.,]+/`, i.e. `cleanText.match(...)[0]`. -/
def firstPriceRun : List Char → Option (List Char)
  | [] => none
  | c :: cs =>
    if isPriceChar c then some (c :: cs.takeWhile isPriceChar)
    else firstPriceRun cs

/-- JS `numStr.replace(',', '.')`: only the first comma is replaced. -/
def replaceFirstComma : List Char → List Char
  | [] => []
  | c :: cs => if c == ',' then '.' :: cs else c :: replaceFirstComma cs

/-- JS `parseFloat` restricted to the alphabet `[0-9.,]` reachable here:
an optional integer part, an optional single dot, an optional fraction;
parsing stops at the first unusable character; `NaN` is `none`. -/
def jsParseFloat (cs : List Char) : Option ℚ :=
  let d1 := cs.takeWhile isDigitCh
  match cs.drop d1.length with
  | '.' :: rest2 =>
    let d2 := rest2.takeWhile isDigitCh
    if d1.isEmpty && d2.isEmpty then none
    else some ((digitsToNat d1 : ℚ) + (digitsToNat d2 : ℚ) / 10 ^ d2.length)
  | _ => if d1.isEmpty then none else some (digitsToNat d1 : ℚ)

/-- JS `numStr.split('.')` at the list level. -/
def splitOnDot : List Char → List (List Char)
  | [] => [[]]
  | c :: cs =>
    if c == '.' then [] :: splitOnDot cs
    else
      match splitOnDot cs with
      | g :: gs => (c :: g) :: gs
      | [] => [[c]]

/-- The dot/comma normalisation of `addPrice`'s `numStr`.  Mirrors the
source: when the run holds both `.` and `,`, dots are stripped and the
first comma becomes the decimal point; when it holds only dots, the source
inspects the final dot-group's length but then strips all dots in *both*
branches (its `// Decimal separator` branch is identical to its thousands
branch). -/
def priceNumStr (run : List Char) : List Char :=
  if run.contains '.' && run.contains ',' then
    replaceFirstComma (run.filter (fun c => c != '.'))
  else if run.contains '.' && !run.contains ',' then
    let parts := splitOnDot run
    if (parts.getLastD []).length ≤ 2 then
      run.filter (fun c => c != '.')
    else
      run.filter (fun c => c != '.')
  else run

/-- The guarded assignment of `addPrice`: a match of `/[\d.,]+/` longer than
two characters, normalised by `priceNumStr`, parsed, and kept only when the
parsed value is positive. -/
def parsePriceAmount (cleanText : String) : Option ℚ :=
  match firstPriceRun cleanText.toList with
  | none => none
  | some run =>
    if run.length > 2 then
      match jsParseFloat (priceNumStr run) with
      | some a => if a > 0 then some a else none
      | none => none
    else none

/-- `addPrice(text)`: currency detection plus the amount parse above. -/
def addPrice (s : Scraper) (text : String) : Scraper :=
  match s.currentProduct with
  | none => s
  | some p =>
    if text != "" then
      let cleanText := jsTrim text
      let p1 := if cleanText == "$" || cleanText == "ARS" || cleanText == "USD" ||
                   cleanText == "US$"
                then { p with priceCurrency := cleanText } else p
      let p2 := match parsePriceAmount cleanText with
                | some a => { p1 with priceAmount := a }
                | none => p1
      { s with currentProduct := some p2 }
    else s

/-- `setSeller(text)` (part_004 variant). -/
def setSeller (s : Scraper) (text : String) : Scraper :=
  match s.currentProduct with
  | none => s
  | some p =>
    if text != "" then
      let cleanText := jsTrim text
      let p1 := if strIncludes cleanText "Concesionaria" || strIncludes cleanText "Dealer"
                then { p with sellerType := "Concesionaria" }
                else if strIncludes cleanText "Dueño" || strIncludes cleanText "Owner"
                then { p with sellerType := "Dueño directo" }
                else p
      let p2 := if p1.sellerName == "" && cleanText.length > 3
                then { p1 with sellerName := cleanText } else p1
      { s with currentProduct := some p2 }
    else s

/-- `setThumbnail(url)` (part_004 variant). -/
def setThumbnail (s : Scraper) (url : String) : Scraper :=
  match s.currentProduct with
  | none => s
  | some p =>
    if url != "" && p.thumbnail == "" then
      { s with currentProduct := some { p with thumbnail := url } }
    else s

/-- Parser events fed to the scraper by `processAutosResponse` /
`processAutosResponseSimple` (the record-building alphabet; `addCarDetails`
touches neither `products` nor the limit and is not needed by any claim). -/
inductive ScrapeEvent where
  | start
  | title (text : String)
  | link (href : String)
  | price (text : String)
  | seller (text : String)
  | thumb (url : String)
  | fin
deriving Repr, DecidableEq

/-- Dispatch one event to the corresponding scraper method. -/
def applyEvent (s : Scraper) : ScrapeEvent → Scraper
  | .start => startProduct s
  | .title t => addTitle s t
  | .link h => setLink s h
  | .price t => addPrice s t
  | .seller t => setSeller s t
  | .thumb u => setThumbnail s u
  | .fin => finalizeCurrentProduct s

/-- Run a sequence of parser events. -/
def runEvents (s : Scraper) (es : List ScrapeEvent) : Scraper :=
  es.foldl applyEvent s

end Cars

namespace Cars

/-! ## `detectNextPage` (src/frontend/src/App.tsx, pagination controller)

Methods 1–3 and 5 (the positive signals: enabled "Siguiente" control,
next-page-number link, pagination container with a next entry, next-offset
URL fragment) are regex scans whose results feed the final decision as four
booleans; they are abstracted here as boolean inputs.  Method 4 — the
end-of-results veto — and the final combination are modelled concretely:
the seven end-marker regexes are compiled to a small pattern language and
an executable backtracking matcher equivalent to `RegExp.test`. -/

/-- One item of the end-marker pattern language: a case-insensitive literal,
a character alternative, `\s+`, or a negated-class star `[^…]*`. -/
inductive PatItem where
  | lit (c : Char)
  | litAny (cs : List Char)
  | wsPlus
  | notStar (cs : List Char)
deriving Repr, DecidableEq

/-- Backtracking matcher: does the pattern match a prefix of the character
list?  Structurally recursive on an explicit fuel so that it reduces in the
kernel; every recursive call shrinks `ps.length + ds.length`, so the fuel
chosen in `matchHere` below is always sufficient.  `\s+` is matched as one
blank followed by an optional further `\s+`; `[^…]*` either stops (and the
rest of the pattern must match here) or consumes one admissible character. -/
def matchFuel : Nat → List PatItem → List Char → Bool
  | 0, ps, _ => ps.isEmpty
  | _ + 1, [], _ => true
  | fuel + 1, .lit c :: ps, d :: ds => d.toLower == c && matchFuel fuel ps ds
  | _ + 1, .lit _ :: _, [] => false
  | fuel + 1, .litAny cs :: ps, d :: ds => cs.contains d.toLower && matchFuel fuel ps ds
  | _ + 1, .litAny _ :: _, [] => false
  | fuel + 1, .wsPlus :: ps, d :: ds =>
    isJsWs d && (matchFuel fuel ps ds || matchFuel fuel (.wsPlus :: ps) ds)
  | _ + 1, .wsPlus :: _, [] => false
  | fuel + 1, .notStar cs :: ps, d :: ds =>
    matchFuel fuel ps (d :: ds) || (!cs.contains d && matchFuel fuel (.notStar cs :: ps) ds)
  | fuel + 1, .notStar _ :: ps, [] => matchFuel fuel ps []

/-- Does the pattern match a prefix of the character list? -/
def matchHere (ps : List PatItem) (ds : List Char) : Bool :=
  matchFuel (ps.length + ds.length + 1) ps ds

/-- `RegExp.test`: does the pattern match starting at any position? -/
def patSearch (p : List PatItem) : List Char → Bool
  | [] => matchHere p []
  | c :: cs => matchHere p (c :: cs) || patSearch p cs

/-- Literal word as pattern items (stored lowercase; `/i` matching). -/
def lits (s : String) : List PatItem := s.toList.map .lit

/-- `[aá]`. -/
def aAcc : PatItem := .litAny ['a', 'á']

/-- `["']`. -/
def quoteAny : PatItem := .litAny ['"', '\'']

/-- `[^"']*`. -/
def notQuote : PatItem := .notStar ['"', '\'']

/-- The seven `endOfResultsPatterns` of `detectNextPage`, in source order. -/
def endOfResultsPatterns : List (List PatItem) :=
  [ lits "no" ++ [.wsPlus] ++ lits "hay" ++ [.wsPlus] ++ lits "m" ++ [aAcc] ++
      lits "s" ++ [.wsPlus] ++ lits "resultados",
    lits "sin" ++ [.wsPlus] ++ lits "resultados",
    lits "no" ++ [.wsPlus] ++ lits "se" ++ [.wsPlus] ++ lits "encontraron" ++
      [.wsPlus] ++ lits "m" ++ [aAcc] ++ lits "s",
    lits "fin" ++ [.wsPlus] ++ lits "de" ++ [.wsPlus] ++ lits "los" ++
      [.wsPlus] ++ lits "resultados",
    lits "no" ++ [.wsPlus] ++ lits "more" ++ [.wsPlus] ++ lits "results",
    lits "end" ++ [.wsPlus] ++ lits "of" ++ [.wsPlus] ++ lits "results",
    lits "<div" ++ [.notStar ['>']] ++ lits "class=" ++ [quoteAny] ++
      [notQuote] ++ lits "no-results" ++ [notQuote] ++ [quoteAny] ]

/-- Method 4 of `detectNextPage`: `hasEndMessage`. -/
def endOfResultsTest (html : String) : Bool :=
  endOfResultsPatterns.any (fun p => patSearch p html.toList)

/-- The four positive pagination signals (methods 1, 2, 3 and 5), abstracted
from their regex scans over the page markup. -/
structure PageSignals where
  hasEnabledSiguiente : Bool
  hasNextPageLink : Bool
  hasPaginationWithNext : Bool
  hasNextPageUrl : Bool
deriving Repr, DecidableEq

/-- Disjunction `positiveIndicators` of the decision logic. -/
def positiveIndicators (sig : PageSignals) : Bool :=
  sig.hasEnabledSiguiente || sig.hasNextPageLink ||
  sig.hasPaginationWithNext || sig.hasNextPageUrl

/-- `detectNextPage`'s `shouldContinue`: OR of the positive signals, vetoed
by the end-of-results marker. -/
def detectNextPage (sig : PageSignals) (html : String) : Bool :=
  let hasEndMessage := endOfResultsTest html
  positiveIndicators sig && !hasEndMessage

end Cars

namespace Cars

/-! ## Deduplication -/

/-- JS truthiness of a `string | null` id (`car.id &&` / `.filter(id => id)`). -/
def idTruthy : Option String → Bool
  | none => false
  | some s => s != ""

/-- Seen-set pass of the dedup loop at the end of `handleInfiniteSearch`
(src/frontend/src/App.tsx): a record with a truthy unseen id is kept and its
id remembered; a record with a falsy id is kept unconditionally; a record
with a seen id is dropped. -/
def dedupInfiniteGo (seenIds : List String) : List CarProduct → List CarProduct
  | [] => []
  | car :: cars =>
    match car.id with
    | some i =>
      if i != "" then
        if seenIds.contains i then dedupInfiniteGo seenIds cars
        else car :: dedupInfiniteGo (i :: seenIds) cars
      else car :: dedupInfiniteGo seenIds cars
    | none => car :: dedupInfiniteGo seenIds cars

/-- The `uniqueCars` dedup of `handleInfiniteSearch`. -/
def dedupInfinite (cars : List CarProduct) : List CarProduct :=
  dedupInfiniteGo [] cars

/-- Seen-set pass of `removeDuplicates(cars)` (`CarsAPI` in
src/frontend/src/App.tsx): `if (seen.has(car.id)) return false;
seen.add(car.id); return true` — the raw id value, `null` included, is the
dedup key.  `LocalMercadoLibreScraper.removeDuplicates`
(src/unnamed/part_001) is the identical function on its own record type. -/
def removeDuplicatesGo (seen : List (Option String)) : List CarProduct → List CarProduct
  | [] => []
  | car :: cars =>
    if seen.contains car.id then removeDuplicatesGo seen cars
    else car :: removeDuplicatesGo (car.id :: seen) cars

/-- `CarsAPI.removeDuplicates(cars)`. -/
def removeDuplicates (cars : List CarProduct) : List CarProduct :=
  removeDuplicatesGo [] cars

/-! ## The local scraper (src/unnamed/part_001) -/

/-- Seller info object (`{ type }` or `{ type, name }`). -/
structure SellerInfo where
  stype : String
  name : Option String
deriving Repr, DecidableEq

/-- The price object of the local scraper: `amount` holds the raw price text. -/
structure PriceText where
  currency : String
  amount : String
deriving Repr, DecidableEq

/-- One record built by `extractCarsFromPage` (the summary pass); the MLA id
is mandatory there, so `id` is a plain string. -/
structure ExtractedCar where
  id : String
  title : String
  price : Option PriceText
  year : Option Nat
  kilometers : Option Nat
  location : Option String
  link : String
  thumbnail : Option String
  description : String
  publishedDate : Option String
  seller : Option SellerInfo
  features : List String
  extractedAt : String
deriving Repr, DecidableEq

/-- The object returned by `extractCarDetails`: each field is a key that the
detail-page extraction may or may not have set (`none` = key absent). -/
structure DetailResult where
  description : Option String
  publishedDate : Option String
  location : Option String
  seller : Option SellerInfo
  features : Option (List String)
  year : Option Nat
  kilometers : Option Nat
deriving Repr, DecidableEq

/-- The `{}` returned by `extractCarDetails` when it fails. -/
def emptyDetailResult : DetailResult :=
  { description := none, publishedDate := none, location := none,
    seller := none, features := none, year := none, kilometers := none }

/-- The enrichment merge `pageCars[i] = { ...pageCars[i], ...detailedCar }`
of `scrapeSearch`: every key present on the detail result overwrites the
summary value; absent keys keep it. -/
def mergeDetails (c : ExtractedCar) (d : DetailResult) : ExtractedCar :=
  { c with
    description := d.description.getD c.description,
    publishedDate := match d.publishedDate with | some v => some v | none => c.publishedDate,
    location := match d.location with | some v => some v | none => c.location,
    seller := match d.seller with | some v => some v | none => c.seller,
    features := d.features.getD c.features,
    year := match d.year with | some v => some v | none => c.year,
    kilometers := match d.kilometers with | some v => some v | none => c.kilometers }

/-- The per-car enrichment loop of `scrapeSearch`: car `i` is merged with its
detail result; a car whose detail extraction failed is merged with the empty
result, which is the identity (the `catch` leaves `pageCars[i]` untouched). -/
def applyDetails : List ExtractedCar → List DetailResult → List ExtractedCar
  | [], _ => []
  | c :: cs, [] => mergeDetails c emptyDetailResult :: applyDetails cs []
  | c :: cs, d :: ds => mergeDetails c d :: applyDetails cs ds

/-- Seen-set pass of `LocalMercadoLibreScraper.removeDuplicates` (ids are
plain strings on this record type). -/
def removeDuplicatesLocalGo (seen : List String) : List ExtractedCar → List ExtractedCar
  | [] => []
  | car :: cars =>
    if seen.contains car.id then removeDuplicatesLocalGo seen cars
    else car :: removeDuplicatesLocalGo (car.id :: seen) cars

/-- `LocalMercadoLibreScraper.removeDuplicates(cars)`. -/
def removeDuplicatesLocal (cars : List ExtractedCar) : List ExtractedCar :=
  removeDuplicatesLocalGo [] cars

/-! ### The `scrapeSearch` session loop (src/unnamed/part_001)

Page navigation, extraction and the next-page probe are abstracted as one
input per loop iteration: either the `catch`-handled error, or a page's
extracted cars together with its per-car detail results and the
`hasNextPage()` answer.  The source exposes no status field; the
`LocalStatus` tag names which exit path of the source loop terminated the
session (`failed` = the `catch` break, `noMoreResults` = the zero-cars
break, `budgetExceeded` = the `currentPage <= this.maxPages` ceiling,
`completed` = `hasNextPage()` false, matching the spec's
`ScrapeSession.status` vocabulary; `inputsExhausted` is a model artifact for
running out of supplied page inputs). -/

/-- One loop iteration's environment for `scrapeSearch`. -/
inductive LocalPage where
  | err
  | ok (cars : List ExtractedCar) (details : List DetailResult) (hasNext : Bool)
deriving Repr, DecidableEq

/-- Exit-path tag for the `scrapeSearch` loop. -/
inductive LocalStatus where
  | completed
  | noMoreResults
  | budgetExceeded
  | failed
  | inputsExhausted
deriving Repr, DecidableEq

/-- The value returned by `scrapeSearch` (query echo fields omitted):
deduplicated cars, their count, and `pagesScraped = currentPage - 1`. -/
structure LocalResult where
  totalCars : Nat
  pagesScraped : Nat
  cars : List ExtractedCar
  status : LocalStatus
deriving Repr, DecidableEq

/-- Result assembly of `scrapeSearch` (`removeDuplicates` then counts). -/
def mkLocalResult (allCars : List ExtractedCar) (currentPage : Nat)
    (st : LocalStatus) : LocalResult :=
  let uniqueCars := removeDuplicatesLocal allCars
  { totalCars := uniqueCars.length, pagesScraped := currentPage - 1,
    cars := uniqueCars, status := st }

/-- Negation of the `this.maxPages === null || currentPage <= this.maxPages`
part of the `scrapeSearch` loop condition (`maxPages = none` models `null`). -/
def pageCeilingHit (maxPages : Option Nat) (currentPage : Nat) : Bool :=
  match maxPages with
  | some m => decide (currentPage > m)
  | none => false

/-- The `while (hasNextPage && (this.maxPages === null || currentPage <=
this.maxPages))` loop of `scrapeSearch`. -/
def runLocal (maxPages : Option Nat) (extractDetails : Bool) :
    List ExtractedCar → Nat → List LocalPage → LocalResult
  | allCars, currentPage, pages =>
    if pageCeilingHit maxPages currentPage then
      mkLocalResult allCars currentPage .budgetExceeded
    else
      match pages with
      | [] => mkLocalResult allCars currentPage .inputsExhausted
      | .err :: _ => mkLocalResult allCars currentPage .failed
      | .ok cars details hasNext :: rest =>
        if cars.isEmpty then mkLocalResult allCars currentPage .noMoreResults
        else
          let pageCars := if extractDetails then applyDetails cars details else cars
          let allCars2 := allCars ++ pageCars
          if hasNext then runLocal maxPages extractDetails allCars2 (currentPage + 1) rest
          else mkLocalResult allCars2 currentPage .completed

end Cars

namespace Cars

/-! ## The `handleInfiniteSearch` session loop (src/frontend/src/App.tsx)

Each loop iteration is abstracted as one input: the two `Date.now() -
startTime` readings (at the `while` condition and at the 80%-of-budget
check), and the fetch outcome — a thrown error (the `catch` path), a
non-`ok` HTTP response, or a page whose markup yields a `detectNextPage`
answer and a list of extracted cars.  The source exposes no status field;
the `InfStatus` tag names which exit path of the source loop terminated the
session, in the spec's `ScrapeSession.status` vocabulary: `failed` = the
`!resp.ok` / `catch` breaks, `noMoreResults` = the zero-cars exit,
`budgetExceeded` = the two time-budget exits, and
`paginationEnd`/`fewCars`/`dupOverlap` = the three heuristic stops;
`inputsExhausted` is a model artifact for running out of supplied inputs. -/

/-- Fetch outcome of one `handleInfiniteSearch` iteration. -/
inductive FetchOutcome where
  | netError
  | httpError
  | ok (hasNext : Bool) (cars : List CarProduct)
deriving Repr, DecidableEq

/-- One iteration's environment: two elapsed-time readings (ms) and the
fetch outcome. -/
structure PageFetch where
  tWhile : Nat
  tInner : Nat
  outcome : FetchOutcome
deriving Repr, DecidableEq

/-- Exit-path tag for the `handleInfiniteSearch` loop. -/
inductive InfStatus where
  | failed
  | noMoreResults
  | budgetExceeded
  | paginationEnd
  | fewCars
  | dupOverlap
  | inputsExhausted
deriving Repr, DecidableEq

/-- The response body of `handleInfiniteSearch` (cars after dedup, page
count, exit tag). -/
structure InfResult where
  cars : List CarProduct
  totalPages : Nat
  status : InfStatus
deriving Repr, DecidableEq

/-- `const maxExecutionTime = 20000`. -/
def maxExecutionTime : Nat := 20000

/-- Final assembly of `handleInfiniteSearch`: dedup then respond. -/
def mkInfResult (allCars : List CarProduct) (totalPages : Nat)
    (st : InfStatus) : InfResult :=
  { cars := dedupInfinite allCars, totalPages := totalPages, status := st }

/-- The tertiary duplicate-overlap stop: truthy ids of the new page already
seen among the previously accumulated cars, compared against 80% of the page
size (`duplicateCount > pageResult.cars.length * 0.8`, exact in rationals,
hence the `10·count > 8·length` integer form). -/
def dupOverlap (allPrev : List CarProduct) (cars : List CarProduct) : Bool :=
  let allPreviousIds : List String :=
    allPrev.filterMap (fun c => match c.id with
      | some i => if i != "" then some i else none
      | none => none)
  let duplicateCount :=
    (cars.filter (fun c => match c.id with
      | some i => i != "" && allPreviousIds.contains i
      | none => false)).length
  decide (10 * duplicateCount > 8 * cars.length)

/-- The `while (hasMorePages && (Date.now() - startTime) < maxExecutionTime)`
loop of `handleInfiniteSearch`, with `hasMorePages := false` exits inlined as
immediate returns (nothing runs between setting the flag and the loop
re-check). -/
def runInf : List CarProduct → Nat → Nat → List PageFetch → InfResult
  | allCars, _, totalPages, [] => mkInfResult allCars totalPages .inputsExhausted
  | allCars, currentPage, totalPages, pf :: rest =>
    if pf.tWhile ≥ maxExecutionTime then
      mkInfResult allCars totalPages .budgetExceeded
    else if 10 * pf.tInner > 8 * maxExecutionTime then
      mkInfResult allCars totalPages .budgetExceeded
    else
      match pf.outcome with
      | .netError => mkInfResult allCars totalPages .failed
      | .httpError => mkInfResult allCars totalPages .failed
      | .ok hasNext cars =>
        if cars.isEmpty then
          mkInfResult allCars (totalPages + 1) .noMoreResults
        else
          let allCars2 := allCars ++ cars
          if !hasNext then mkInfResult allCars2 (totalPages + 1) .paginationEnd
          else if cars.length < 5 then mkInfResult allCars2 (totalPages + 1) .fewCars
          else if currentPage > 1 && dupOverlap allCars cars then
            mkInfResult allCars2 (totalPages + 1) .dupOverlap
          else runInf allCars2 (currentPage + 1) (totalPages + 1) rest

/-- A whole session: `allCars = []`, `currentPage = 1`, `totalPages = 0`. -/
def runInfSession (pages : List PageFetch) : InfResult :=
  runInf [] 1 0 pages

/-! ## The merge-on-store path: `CarsAPI.storeCars` (src/frontend/src/App.tsx) -/

/-- The merge of `storeCars` when a value already exists at the key:
existing cars whose id is in `enhancedCarIds` (the JS `Set` of the new
records' raw id values, `null` included) are discarded, then the new cars
are appended. -/
def storeMergedCars (cars existing : List CarProduct) : List CarProduct :=
  let enhancedCarIds : List (Option String) := cars.map (fun c => c.id)
  let existingCarsToKeep := existing.filter (fun car => !enhancedCarIds.contains car.id)
  existingCarsToKeep ++ cars

/-- The `cars`/`totalCars` pair of the `collectionData` written by
`storeCars`: merged when existing data was found, the new list as-is
otherwise. -/
structure StoredCollection where
  cars : List CarProduct
  totalCars : Nat
deriving Repr, DecidableEq

/-- `storeCars` write value (`existing = none` models no prior value or an
unparseable one). -/
def storeCarsValue (cars : List CarProduct) (existing : Option (List CarProduct)) :
    StoredCollection :=
  match existing with
  | some ex =>
    let finalCars := storeMergedCars cars ex
    { cars := finalCars, totalCars := finalCars.length }
  | none => { cars := cars, totalCars := cars.length }

end Cars

namespace Cars

/-! ## The claimed validity predicate (spec side, for claim C9)

The spec asserts acceptance iff non-empty title AND resolvable link AND
(brand keyword OR car keyword OR plausible 4-digit year token OR strict
listing-URL pattern).  The definitions below follow the spec's words — not
the source — so that the claim can be compared with `isValidCarListing`;
the plausible-year window is the spec's `[1990, currentYear+1]` with the
spec's boundary year 2026. -/

/-- Is there a 4-digit token right here (digit run of length exactly four)
whose value lies in the plausible window `[1990, 2026]`? -/
def yearTokenAt : List Char → Bool
  | c1 :: c2 :: c3 :: c4 :: rest =>
    isDigitCh c1 && isDigitCh c2 && isDigitCh c3 && isDigitCh c4 &&
    (match rest with | [] => true | r :: _ => !isDigitCh r) &&
    (let n := digitsToNat [c1, c2, c3, c4]
     decide (1990 ≤ n ∧ n ≤ 2026))
  | _ => false

/-- Scan for a plausible 4-digit year token; the boolean argument records
whether the current position sits at a digit-run boundary. -/
def hasYearTokenAux : Bool → List Char → Bool
  | _, [] => false
  | bdry, c :: rest =>
    (bdry && yearTokenAt (c :: rest)) || hasYearTokenAux (!isDigitCh c) rest

/-- Plausible 4-digit year token anywhere in the title. -/
def hasYearToken (title : String) : Bool :=
  hasYearTokenAux true title.toList

/-- The validity predicate exactly as the spec claims it (spec wording;
compare with the source's `isValidCarListing`, which has no year
disjunct). -/
def specClaimedValidity (p : CarProduct) : Bool :=
  jsTrim p.title != "" && p.link != "" &&
  (carBrands.any (fun b => strIncludes (lowerStr p.title) b) ||
   carWords.any (fun w => strIncludes (lowerStr p.title) w) ||
   hasYearToken p.title ||
   strIncludes p.link "autos.mercadolibre.com.ar")

/-! ## Concrete inputs used by the theorems -/

/-- A minimal valid product with a given id (title carries a brand). -/
def sampleCar (i : String) : CarProduct :=
  { emptyCarProduct with
    id := some i, title := "Toyota Corolla " ++ i,
    link := "https://autos.mercadolibre.com.ar/MLA-" ++ i }

/-- A product with a `null` id and a distinguishing title. -/
def nullIdCar (t : String) : CarProduct := { emptyCarProduct with title := t }

/-- Cars of page 1 of the five-page scenario (spec §8). -/
def c4Cars1 : List CarProduct := ["1", "2", "3", "4", "5"].map sampleCar

/-- Cars of page 2 of the five-page scenario. -/
def c4Cars2 : List CarProduct := ["6", "7", "8", "9", "10"].map sampleCar

/-- Page 1: fetched early, has a next page, five cars. -/
def c4Page1 : PageFetch := { tWhile := 100, tInner := 150, outcome := .ok true c4Cars1 }

/-- Page 2: likewise. -/
def c4Page2 : PageFetch := { tWhile := 2100, tInner := 2150, outcome := .ok true c4Cars2 }

/-- Page 3: the fetch fails with a non-success HTTP status. -/
def c4PageFail : PageFetch := { tWhile := 4100, tInner := 4150, outcome := .httpError }

/-- Pages 4 and 5: never reached. -/
def c4PageLater : PageFetch := { tWhile := 6100, tInner := 6150, outcome := .ok true c4Cars1 }

/-- One extracted car for the always-has-next-page budget scenario. -/
def alwaysNextCar : ExtractedCar :=
  { id := "111", title := "Toyota Yaris", price := none, year := none,
    kilometers := none, location := none,
    link := "https://autos.mercadolibre.com.ar/MLA-111", thumbnail := none,
    description := "", publishedDate := none, seller := none, features := [],
    extractedAt := "2024-01-01" }

/-- A page that always reports a next page (simulated infinite site). -/
def alwaysNextPage : LocalPage := .ok [alwaysNextCar] [] true

/-- Summary-pass record whose location and description are already set. -/
def c2SummaryCar : ExtractedCar :=
  { alwaysNextCar with
    id := "222", location := some "Palermo",
    description := "Resumen corto" }

/-- Detail-pass result that found a location and a description. -/
def c2Details : DetailResult :=
  { emptyDetailResult with
    location := some "Córdoba, Capital Federal",
    description := some "Detalle del vehículo" }

/-- Page markup carrying an explicit end-of-results marker. -/
def c3EndHtml : String := "<p>No hay más resultados</p>"

/-- Ordinary results-page markup without any end marker. -/
def c3PlainHtml : String :=
  "<div class=\"ui-search-results\"><h2>Toyota Corolla 2020</h2></div>"

/-- Event sequence triggering the double finalization: one complete record,
the page-end flush, then the next page's first `startProduct`. -/
def c8Events : List ScrapeEvent :=
  [.start, .title "Toyota Corolla 2020",
   .link "https://autos.mercadolibre.com.ar/MLA-12345", .fin, .start]

/-- The record that `c8Events` builds and finalizes. -/
def c8FinalCar : CarProduct :=
  { emptyCarProduct with
    id := some "12345", title := "Toyota Corolla 2020",
    link := "https://autos.mercadolibre.com.ar/MLA-12345" }

/-- A fragment whose title has only a plausible year token (no brand, no car
word) and whose link is a listing URL outside the autos domain. -/
def c9YearOnlyCar : CarProduct :=
  { emptyCarProduct with
    id := some "12345", title := "Auto usado modelo 2020",
    link := "https://www.mercadolibre.com.ar/MLA-12345" }

/-- The spec's navigation-noise fragment. -/
def c9NavCar : CarProduct :=
  { emptyCarProduct with
    title := "Inicio | Ofertas | Ayuda",
    link := "https://www.mercadolibre.com.ar/ayuda" }

/-- The spec's accepted fragment: brand, year, kilometres, autos link. -/
def c9ToyotaCar : CarProduct :=
  { emptyCarProduct with
    id := some "777",
    title := "Toyota Corolla 2020 45.000 km",
    link := "https://autos.mercadolibre.com.ar/MLA-777" }

/-- Two records with `null` ids for the dedup counterexample. -/
def c6NullCarA : CarProduct := nullIdCar "Primer auto sin id"

/-- Second `null`-id record; dropped by `removeDuplicates`. -/
def c6NullCarB : CarProduct := nullIdCar "Segundo auto sin id"

end Cars

namespace Cars

/-! ## Helper lemmas -/

/-- An amount is only ever assigned when the parsed value is `> 0`. -/
theorem parsePriceAmount_pos (t : String) (q : ℚ)
    (h : parsePriceAmount t = some q) : 0 < q := by
  unfold parsePriceAmount at h
  rcases hfr : firstPriceRun t.toList with _ | run <;> simp only [hfr] at h
  · exact absurd h (by simp)
  · by_cases hl : run.length > 2
    · rw [if_pos hl] at h
      rcases hjp : jsParseFloat (priceNumStr run) with _ | a <;> simp only [hjp] at h
      · exact absurd h (by simp)
      · by_cases ha : a > 0
        · rw [if_pos ha] at h
          simp only [Option.some.injEq] at h
          exact h ▸ ha
        · rw [if_neg ha] at h
          exact absurd h (by simp)
    · rw [if_neg hl] at h
      exact absurd h (by simp)

/-- Merging with the empty detail result (the failed-extraction `{}`) is the
identity. -/
theorem mergeDetails_empty (c : ExtractedCar) :
    mergeDetails c emptyDetailResult = c := rfl

/-- Detail application with no detail results leaves every car unchanged. -/
theorem applyDetails_nil (cars : List ExtractedCar) :
    applyDetails cars [] = cars := by
  induction cars with
  | nil => rfl
  | cons c cs ih => simp [applyDetails, mergeDetails_empty, ih]

end Cars

namespace Cars

/-- The infinite-search dedup pass returns a sublist (order preserved, no
record invented). -/
theorem dedupInfiniteGo_sublist (cars : List CarProduct) :
    ∀ seen, List.Sublist (dedupInfiniteGo seen cars) cars := by
  induction cars with
  | nil => intro seen; simp [dedupInfiniteGo]
  | cons car cars ih =>
    intro seen
    rcases hid : car.id with _ | i
    · simpa [dedupInfiniteGo, hid] using (ih seen).cons₂ car
    · by_cases hi : i = ""
      · simpa [dedupInfiniteGo, hid, hi] using (ih seen).cons₂ car
      · by_cases hc : i ∈ seen
        · simpa [dedupInfiniteGo, hid, hi, hc] using (ih seen).cons car
        · simpa [dedupInfiniteGo, hid, hi, hc] using (ih (i :: seen)).cons₂ car

/-- The infinite-search dedup pass keeps every record whose id is falsy
(`null` or empty), with multiplicity. -/
theorem dedupInfiniteGo_countP_falsy (cars : List CarProduct) :
    ∀ seen, (dedupInfiniteGo seen cars).countP (fun c => !idTruthy c.id) =
      cars.countP (fun c => !idTruthy c.id) := by
  induction cars with
  | nil => intro seen; rfl
  | cons car cars ih =>
    intro seen
    rcases hid : car.id with _ | i
    · have hpc : (!idTruthy car.id) = true := by simp [idTruthy, hid]
      simp [dedupInfiniteGo, hid, List.countP_cons, hpc, ih seen]
    · by_cases hi : i = ""
      · have hpc : (!idTruthy car.id) = true := by simp [idTruthy, hid, hi]
        simp [dedupInfiniteGo, hid, hi, List.countP_cons, hpc, ih seen]
      · have hpc : (!idTruthy car.id) = false := by simp [idTruthy, hid, hi]
        have hpc2 : idTruthy (some i) = true := by simp [idTruthy, hi]
        by_cases hc : i ∈ seen
        · simp [dedupInfiniteGo, hid, hi, hc, List.countP_cons, hpc, hpc2, ih seen]
        · simp [dedupInfiniteGo, hid, hi, hc, List.countP_cons, hpc, ih (i :: seen)]

/-- First occurrence wins in the infinite-search dedup pass: for a truthy id
the output retains exactly the first record carrying it (none when the id
was already seen). -/
theorem dedupInfiniteGo_filter (i : String) (hi : ¬ i = "") (cars : List CarProduct) :
    ∀ seen, (dedupInfiniteGo seen cars).filter (fun c => c.id == some i) =
      if i ∈ seen then [] else (cars.filter (fun c => c.id == some i)).take 1 := by
  induction cars with
  | nil => intro seen; by_cases hc : i ∈ seen <;> simp [dedupInfiniteGo, hc]
  | cons car cars ih =>
    intro seen
    rcases hid : car.id with _ | j
    · simp [dedupInfiniteGo, hid, List.filter_cons, ih seen]
    · by_cases hj : j = ""
      · subst hj
        simp [dedupInfiniteGo, hid, List.filter_cons, Ne.symm hi, ih seen]
      · by_cases hji : j = i
        · subst hji
          by_cases hc : j ∈ seen
          · simp [dedupInfiniteGo, hid, hj, hc, List.filter_cons, ih seen]
          · simp [dedupInfiniteGo, hid, hj, hc, List.filter_cons, ih (j :: seen)]
        · by_cases hc : j ∈ seen
          · simp [dedupInfiniteGo, hid, hj, hc, List.filter_cons, hji, ih seen]
          · have hcc : (i ∈ j :: seen) = (i ∈ seen) := by
              simp [List.mem_cons, Ne.symm hji]
            simp [dedupInfiniteGo, hid, hj, hc, List.filter_cons, hji, ih (j :: seen), hcc]

/-- `removeDuplicates` returns a sublist (order preserved). -/
theorem removeDuplicatesGo_sublist (cars : List CarProduct) :
    ∀ seen, List.Sublist (removeDuplicatesGo seen cars) cars := by
  induction cars with
  | nil => intro seen; simp [removeDuplicatesGo]
  | cons car cars ih =>
    intro seen
    by_cases hc : car.id ∈ seen
    · simpa [removeDuplicatesGo, hc] using (ih seen).cons car
    · simpa [removeDuplicatesGo, hc] using (ih (car.id :: seen)).cons₂ car

/-- First occurrence wins in `removeDuplicates`, with the raw id value —
`null` included — as the key. -/
theorem removeDuplicatesGo_filter (k : Option String) (cars : List CarProduct) :
    ∀ seen, (removeDuplicatesGo seen cars).filter (fun c => c.id == k) =
      if k ∈ seen then [] else (cars.filter (fun c => c.id == k)).take 1 := by
  induction cars with
  | nil => intro seen; by_cases hc : k ∈ seen <;> simp [removeDuplicatesGo, hc]
  | cons car cars ih =>
    intro seen
    by_cases hk : car.id = k
    · subst hk
      by_cases hc : car.id ∈ seen
      · simp [removeDuplicatesGo, hc, List.filter_cons, ih seen]
      · simp [removeDuplicatesGo, hc, List.filter_cons, ih (car.id :: seen)]
    · by_cases hc : car.id ∈ seen
      · simp [removeDuplicatesGo, hc, List.filter_cons, hk, ih seen]
      · have hcc : (k ∈ car.id :: seen) = (k ∈ seen) := by
          simp [List.mem_cons, Ne.symm hk]
        simp [removeDuplicatesGo, hc, List.filter_cons, hk, ih (car.id :: seen), hcc]

end Cars

namespace Cars

/-- `addTitle` never touches the products list. -/
theorem addTitle_products (s : Scraper) (t : String) :
    (addTitle s t).products = s.products := by
  unfold addTitle
  rcases hcp : s.currentProduct with _ | p <;> simp only [hcp]
  · split
    · split <;> rfl
    · rfl

/-- `setLink` never touches the products list. -/
theorem setLink_products (s : Scraper) (h : String) :
    (setLink s h).products = s.products := by
  unfold setLink
  rcases hcp : s.currentProduct with _ | p <;> simp only [hcp]
  · split
    · split
      · split <;> rfl
      · rfl
    · rfl

/-- `addPrice` never touches the products list. -/
theorem addPrice_products (s : Scraper) (t : String) :
    (addPrice s t).products = s.products := by
  unfold addPrice
  rcases hcp : s.currentProduct with _ | p <;> simp only [hcp]
  · split
    · split <;> rfl
    · rfl

/-- `setSeller` never touches the products list. -/
theorem setSeller_products (s : Scraper) (t : String) :
    (setSeller s t).products = s.products := by
  unfold setSeller
  rcases hcp : s.currentProduct with _ | p <;> simp only [hcp]
  · split <;> rfl

/-- `setThumbnail` never touches the products list. -/
theorem setThumbnail_products (s : Scraper) (u : String) :
    (setThumbnail s u).products = s.products := by
  unfold setThumbnail
  rcases hcp : s.currentProduct with _ | p <;> simp only [hcp]
  · split <;> rfl

/-- `finalizeCurrentProduct` preserves the configured limit. -/
theorem finalize_limit (s : Scraper) :
    (finalizeCurrentProduct s).limit = s.limit := by
  unfold finalizeCurrentProduct
  rcases hcp : s.currentProduct with _ | p <;> simp only [hcp]
  · split
    · split <;> rfl
    · rfl

/-- No scraper event changes the configured limit. -/
theorem applyEvent_limit (s : Scraper) (e : ScrapeEvent) :
    (applyEvent s e).limit = s.limit := by
  cases e with
  | start =>
    show (startProduct s).limit = s.limit
    unfold startProduct startProductGo
    rcases hl : s.limit with _ | n <;> simp only [hl]
    · exact (finalize_limit s).trans hl
    · split
      · exact hl
      · exact (finalize_limit s).trans hl
  | fin => exact finalize_limit s
  | title t =>
    show (addTitle s t).limit = s.limit
    unfold addTitle
    rcases hcp : s.currentProduct with _ | p <;> simp only [hcp]
    · split
      · split <;> rfl
      · rfl
  | link h =>
    show (setLink s h).limit = s.limit
    unfold setLink
    rcases hcp : s.currentProduct with _ | p <;> simp only [hcp]
    · split
      · split
        · split <;> rfl
        · rfl
      · rfl
  | price t =>
    show (addPrice s t).limit = s.limit
    unfold addPrice
    rcases hcp : s.currentProduct with _ | p <;> simp only [hcp]
    · split
      · split <;> rfl
      · rfl
  | seller t =>
    show (setSeller s t).limit = s.limit
    unfold setSeller
    rcases hcp : s.currentProduct with _ | p <;> simp only [hcp]
    · split <;> rfl
  | thumb u =>
    show (setThumbnail s u).limit = s.limit
    unfold setThumbnail
    rcases hcp : s.currentProduct with _ | p <;> simp only [hcp]
    · split <;> rfl

/-- `finalizeCurrentProduct` keeps the products length within a finite
limit: it only pushes when `products.length < limit`. -/
theorem finalize_products_length_le (n : Nat) (s : Scraper)
    (hl : s.limit = some n) (h : s.products.length ≤ n) :
    (finalizeCurrentProduct s).products.length ≤ n := by
  unfold finalizeCurrentProduct
  rcases hcp : s.currentProduct with _ | p0 <;> simp only [hcp]
  · exact h
  · split
    · next hcond =>
      split
      · show (s.products ++ [_]).length ≤ n
        simp only [Bool.and_eq_true] at hcond
        have hla := hcond.2
        rw [hl] at hla
        have hlt : s.products.length < n := by
          simpa [limitAllows] using hla
        simp [List.length_append]
        omega
      · exact h
    · exact h

/-- One scraper event keeps the products length within a finite limit. -/
theorem applyEvent_products_le (n : Nat) (s : Scraper) (e : ScrapeEvent)
    (hl : s.limit = some n) (h : s.products.length ≤ n) :
    (applyEvent s e).products.length ≤ n := by
  cases e with
  | start =>
    show (startProduct s).products.length ≤ n
    unfold startProduct
    simp only [hl]
    split
    · exact h
    · show (finalizeCurrentProduct s).products.length ≤ n
      exact finalize_products_length_le n s hl h
  | fin => exact finalize_products_length_le n s hl h
  | title t => rw [show (applyEvent s (.title t)) = addTitle s t from rfl, addTitle_products]; exact h
  | link hh => rw [show (applyEvent s (.link hh)) = setLink s hh from rfl, setLink_products]; exact h
  | price t => rw [show (applyEvent s (.price t)) = addPrice s t from rfl, addPrice_products]; exact h
  | seller t => rw [show (applyEvent s (.seller t)) = setSeller s t from rfl, setSeller_products]; exact h
  | thumb u => rw [show (applyEvent s (.thumb u)) = setThumbnail s u from rfl, setThumbnail_products]; exact h

/-- Event-sequence invariant: a finite limit bounds the products list. -/
theorem runEvents_products_le (n : Nat) (es : List ScrapeEvent) :
    ∀ s : Scraper, s.limit = some n → s.products.length ≤ n →
      (runEvents s es).products.length ≤ n := by
  induction es with
  | nil => intro s _ h; exact h
  | cons e es ih =>
    intro s hl h
    show (runEvents (applyEvent s e) es).products.length ≤ n
    exact ih (applyEvent s e) ((applyEvent_limit s e).trans hl)
      (applyEvent_products_le n s e hl h)

end Cars

namespace Cars

theorem runLocal_always (k : Nat) :
    ∀ (p : Nat) (acc : List ExtractedCar),
      runLocal (some (p + k)) false acc p (List.replicate (k + 1) alwaysNextPage) =
        mkLocalResult (acc ++ List.replicate (k + 1) alwaysNextCar) (p + k + 1)
          .budgetExceeded := by
  induction k with
  | zero =>
    intro p acc
    rw [List.replicate_succ, List.replicate_zero, List.replicate_succ, List.replicate_zero]
    rw [runLocal.eq_def]
    simp only [pageCeilingHit, Nat.add_zero, gt_iff_lt, lt_self_iff_false, decide_False,
      Bool.false_eq_true, if_false, alwaysNextPage, List.isEmpty_cons, ite_false]
    simp only [if_true]
    rw [runLocal.eq_def]
    simp [pageCeilingHit]
  | succ k ihk =>
    intro p acc
    rw [List.replicate_succ]
    rw [runLocal.eq_def]
    dsimp only
    have hc : pageCeilingHit (some (p + (k + 1))) p = false := by
      simp only [pageCeilingHit, gt_iff_lt, decide_eq_false_iff_not, not_lt]
      omega
    rw [hc]
    simp only [Bool.false_eq_true, if_false, alwaysNextPage, List.isEmpty_cons,
      ite_false, if_true, Bool.false_eq_true]
    have h1 : p + (k + 1) = p + 1 + k := by omega
    rw [h1]
    have ihk2 := ihk (p + 1) (acc ++ [alwaysNextCar])
    simp only [alwaysNextPage] at ihk2
    rw [ihk2]
    rw [List.append_assoc]
    simp [List.replicate_succ]

end Cars

namespace Cars

/-! ## Claim theorems -/

/-- Claim C1: `addPrice` splits a dot-only numeric token on its dots and
inspects the final group's length, but the branch its source comments call
the decimal-separator case strips the dots exactly like the thousands
branch, so the dot is never honoured as a decimal separator: `"1.50"`
parses to `150`, not `1.5`.  The mixed-format example `"1.234.567,89"`
yields `1234567.89`, `"1.234"` yields `1234`, and any amount the parser
accepts (and hence any value assigned to `price.amount`) is `> 0`. -/
theorem claim1_addPrice_parsing :
    parsePriceAmount "1.50" = some 150 ∧
    ((runEvents (mkScraper none) [.start, .price "1.50"]).currentProduct.map
      (fun p => p.priceAmount)) = some 150 ∧
    parsePriceAmount "1.234.567,89" = some (123456789 / 100) ∧
    parsePriceAmount "1.234" = some 1234 ∧
    ∀ t : String, 0 < (parsePriceAmount t).getD 1 := by
  refine ⟨by decide, by decide, ?_, by decide, fun t => ?_⟩
  · norm_num +decide [parsePriceAmount, firstPriceRun, isPriceChar, isDigitCh, priceNumStr,
      replaceFirstComma, splitOnDot, jsParseFloat, digitsToNat, String.toList,
      show '0'.toNat = 48 from rfl, show '1'.toNat = 49 from rfl,
      show '2'.toNat = 50 from rfl, show '3'.toNat = 51 from rfl,
      show '4'.toNat = 52 from rfl, show '5'.toNat = 53 from rfl,
      show '6'.toNat = 54 from rfl, show '7'.toNat = 55 from rfl,
      show '8'.toNat = 56 from rfl, show '9'.toNat = 57 from rfl]
  · rcases h : parsePriceAmount t with _ | q
    · norm_num
    · simpa using parsePriceAmount_pos t q h

/-- Claim C2 counterexample: the enrichment merge
`pageCars[i] = { ...pageCars[i], ...detailedCar }` overwrites fields the
summary pass already set — the summary location "Palermo" and the summary
description are both replaced by the detail-page values, refuting
"may only fill fields that are null/empty … never overwrites". -/
theorem claim2_counterexample :
    c2SummaryCar.location = some "Palermo" ∧
    c2Details.location = some "Córdoba, Capital Federal" ∧
    (mergeDetails c2SummaryCar c2Details).location = some "Córdoba, Capital Federal" ∧
    c2SummaryCar.description = "Resumen corto" ∧
    (mergeDetails c2SummaryCar c2Details).description = "Detalle del vehículo" := by
  exact ⟨rfl, rfl, rfl, rfl, rfl⟩

/-- Claim C2 (amended): detail-page enrichment merges the detail result over
the accepted record with the detail value winning on every key the detail
extraction set (it may overwrite summary-set fields); keys the detail pass
did not set keep the summary value; a failed enrichment (the empty `{}`
result) leaves the record unchanged; and no record is ever dropped — the
enriched list has exactly the records of the summary list. -/
theorem claim2_enrichment_merge :
    (∀ c, mergeDetails c emptyDetailResult = c) ∧
    (∀ cars : List ExtractedCar, applyDetails cars [] = cars) ∧
    (∀ c d, d.location = none → (mergeDetails c d).location = c.location) ∧
    (∀ c d v, d.location = some v → (mergeDetails c d).location = some v) ∧
    (∀ c d, d.year = none → (mergeDetails c d).year = c.year) ∧
    (∀ c d v, d.year = some v → (mergeDetails c d).year = some v) ∧
    (∀ c d, d.description = none → (mergeDetails c d).description = c.description) ∧
    (∀ c d v, d.description = some v → (mergeDetails c d).description = v) ∧
    (∀ (cars : List ExtractedCar) (ds : List DetailResult),
      (applyDetails cars ds).length = cars.length) := by
  refine ⟨mergeDetails_empty, applyDetails_nil, ?_, ?_, ?_, ?_, ?_, ?_, ?_⟩
  · intro c d h; simp [mergeDetails, h]
  · intro c d v h; simp [mergeDetails, h]
  · intro c d h; simp [mergeDetails, h]
  · intro c d v h; simp [mergeDetails, h]
  · intro c d h; simp [mergeDetails, h]
  · intro c d v h; simp [mergeDetails, h]
  · intro cars
    induction cars with
    | nil => intro ds; cases ds <;> rfl
    | cons c cs ih =>
      intro ds
      cases ds with
      | nil => simp [applyDetails, ih]
      | cons d ds => simp [applyDetails, ih]

/-- Witness for claim C2's amended theorem at concrete inputs. -/
theorem claim2_enrichment_merge_witness :
    mergeDetails c2SummaryCar emptyDetailResult = c2SummaryCar ∧
    (mergeDetails c2SummaryCar c2Details).location = some "Córdoba, Capital Federal" := by
  constructor
  · exact claim2_enrichment_merge.1 c2SummaryCar
  · exact claim2_enrichment_merge.2.2.2.1 c2SummaryCar c2Details
      "Córdoba, Capital Federal" rfl

/-- Claim C3: the next-page decision ORs the four positive signals and
vetoes the result with the end-of-results scan: on any markup containing an
end marker the decision is stop regardless of the signals, and on any
markup without one it is continue iff at least one positive signal holds;
concretely, an explicit "No hay más resultados" page is vetoed even with
every signal set, and a plain results page follows the signals. -/
theorem claim3_detect_next_page :
    (∀ sig html, endOfResultsTest html = true → detectNextPage sig html = false) ∧
    (∀ sig html, endOfResultsTest html = false →
      detectNextPage sig html = positiveIndicators sig) ∧
    endOfResultsTest c3EndHtml = true ∧
    detectNextPage ⟨true, true, true, true⟩ c3EndHtml = false ∧
    endOfResultsTest c3PlainHtml = false ∧
    detectNextPage ⟨false, false, false, true⟩ c3PlainHtml = true ∧
    detectNextPage ⟨false, false, false, false⟩ c3PlainHtml = false := by
  refine ⟨?_, ?_, by decide, by decide, by decide, by decide, by decide⟩
  · intro sig html h; simp [detectNextPage, h]
  · intro sig html h; simp [detectNextPage, h]

/-- Witness for claim C3's theorem at concrete pages. -/
theorem claim3_witness :
    detectNextPage ⟨true, true, true, true⟩ c3EndHtml = false ∧
    detectNextPage ⟨true, false, false, false⟩ c3PlainHtml = true := by
  constructor
  · exact claim3_detect_next_page.1 ⟨true, true, true, true⟩ c3EndHtml (by decide)
  · exact (claim3_detect_next_page.2.1 ⟨true, false, false, false⟩ c3PlainHtml
      (by decide)).trans (by decide)

/-- Claim C4: a fetch failure (thrown error or non-success status) on any
page terminates the session at that page with the deduplicated records of
the earlier pages and the `Failed` exit; a successful fetch with zero
records terminates it with the `NoMoreResults` exit; concretely, failing on
page 3 of a five-page session returns pages 1–2's ten records with
`failed`. -/
theorem claim4_failure_semantics :
    (∀ allCars currentPage totalPages (pf : PageFetch) rest,
      pf.tWhile < maxExecutionTime → 10 * pf.tInner ≤ 8 * maxExecutionTime →
      (pf.outcome = .netError ∨ pf.outcome = .httpError) →
      runInf allCars currentPage totalPages (pf :: rest) =
        mkInfResult allCars totalPages .failed) ∧
    (∀ allCars currentPage totalPages (pf : PageFetch) rest hasNext,
      pf.tWhile < maxExecutionTime → 10 * pf.tInner ≤ 8 * maxExecutionTime →
      pf.outcome = .ok hasNext [] →
      runInf allCars currentPage totalPages (pf :: rest) =
        mkInfResult allCars (totalPages + 1) .noMoreResults) ∧
    runInfSession [c4Page1, c4Page2, c4PageFail, c4PageLater, c4PageLater] =
      { cars := c4Cars1 ++ c4Cars2, totalPages := 2, status := .failed } ∧
    (c4Cars1 ++ c4Cars2).length = 10 := by
  refine ⟨?_, ?_, by decide, by decide⟩
  · rintro allCars currentPage totalPages ⟨tw, ti, o⟩ rest h1 h2 (rfl | rfl) <;>
      (rw [runInf.eq_def]; dsimp only;
       rw [if_neg (Nat.not_le.mpr h1), if_neg (Nat.not_lt.mpr h2)])
  · rintro allCars currentPage totalPages ⟨tw, ti, o⟩ rest hasNext h1 h2 rfl
    rw [runInf.eq_def]; dsimp only
    rw [if_neg (Nat.not_le.mpr h1), if_neg (Nat.not_lt.mpr h2)]
    rfl

/-- Witness for claim C4's theorem at concrete sessions. -/
theorem claim4_witness :
    runInf [] 1 0 [{ tWhile := 0, tInner := 0, outcome := .netError }] =
      mkInfResult [] 0 .failed ∧
    runInf c4Cars1 2 1 [{ tWhile := 0, tInner := 0, outcome := .ok true [] }] =
      mkInfResult c4Cars1 2 .noMoreResults := by
  constructor
  · exact claim4_failure_semantics.1 [] 1 0 _ [] (by decide) (by decide) (Or.inl rfl)
  · exact claim4_failure_semantics.2.1 c4Cars1 2 1 _ [] true (by decide) (by decide) rfl

/-- Claim C5: with page ceiling `maxPages = k + 1` a session whose every
page reports a next page terminates after scraping exactly `k + 1` pages
through the budget exit, and the infinite-search loop stops before fetching
as soon as an elapsed-time reading exceeds 80% of the 20-second budget. -/
theorem claim5_budget :
    (∀ k : Nat,
      (runLocal (some (k + 1)) false [] 1
        (List.replicate (k + 1) alwaysNextPage)).pagesScraped = k + 1 ∧
      (runLocal (some (k + 1)) false [] 1
        (List.replicate (k + 1) alwaysNextPage)).status = .budgetExceeded) ∧
    (∀ allCars currentPage totalPages (pf : PageFetch) rest,
      pf.tWhile < maxExecutionTime → 10 * pf.tInner > 8 * maxExecutionTime →
      runInf allCars currentPage totalPages (pf :: rest) =
        mkInfResult allCars totalPages .budgetExceeded) := by
  constructor
  · intro k
    have h := runLocal_always k 1 []
    rw [Nat.add_comm 1 k] at h
    rw [h]
    constructor
    · simp [mkLocalResult]
    · simp [mkLocalResult]
  · rintro allCars currentPage totalPages ⟨tw, ti, o⟩ rest h1 h2
    rw [runInf.eq_def]; dsimp only
    rw [if_neg (Nat.not_le.mpr h1), if_pos h2]

/-- Witness for claim C5's theorem: the spec's `maxPages = 3` scenario and a
concrete 80%-of-budget reading. -/
theorem claim5_witness :
    (runLocal (some 3) false [] 1 (List.replicate 3 alwaysNextPage)).pagesScraped = 3 ∧
    (runLocal (some 3) false [] 1 (List.replicate 3 alwaysNextPage)).status =
      .budgetExceeded ∧
    runInf [] 1 0 [{ tWhile := 100, tInner := 16001, outcome := .ok true [] }] =
      mkInfResult [] 0 .budgetExceeded := by
  refine ⟨(claim5_budget.1 2).1, (claim5_budget.1 2).2, ?_⟩
  exact claim5_budget.2 [] 1 0 _ [] (by decide) (by decide)

end Cars

namespace Cars

/-- Claim C6 counterexample: `removeDuplicates` puts the raw id value —
`null` included — into its seen set, so the second of two `null`-id records
is dropped, refuting "every record whose id is null … is passed through
unfiltered (kept in the output, never dropped)". -/
theorem claim6_counterexample :
    c6NullCarA.id = none ∧ c6NullCarB.id = none ∧ c6NullCarA ≠ c6NullCarB ∧
    removeDuplicates [c6NullCarA, c6NullCarB] = [c6NullCarA] := by
  refine ⟨rfl, rfl, by decide, by decide⟩

/-- Claim C6 (amended): both dedup passes are single order-preserving passes
keyed by id in which the first occurrence wins.  The infinite-search pass
keeps every record with a falsy (`null`/empty) id, with multiplicity, and
for any truthy id retains exactly the first record carrying it; the
`removeDuplicates` helper treats the raw id value — `null` included — as a
key, so for every key (including `null`) only the first record survives,
and later `null`-id records are dropped. -/
theorem claim6_dedup :
    (∀ cars : List CarProduct, List.Sublist (dedupInfinite cars) cars) ∧
    (∀ cars : List CarProduct,
      (dedupInfinite cars).countP (fun c => !idTruthy c.id) =
        cars.countP (fun c => !idTruthy c.id)) ∧
    (∀ (cars : List CarProduct) (i : String), i ≠ "" →
      (dedupInfinite cars).filter (fun c => c.id == some i) =
        (cars.filter (fun c => c.id == some i)).take 1) ∧
    (∀ cars : List CarProduct, List.Sublist (removeDuplicates cars) cars) ∧
    (∀ (cars : List CarProduct) (k : Option String),
      (removeDuplicates cars).filter (fun c => c.id == k) =
        (cars.filter (fun c => c.id == k)).take 1) := by
  refine ⟨fun cars => dedupInfiniteGo_sublist cars [],
    fun cars => dedupInfiniteGo_countP_falsy cars [],
    fun cars i hi => ?_,
    fun cars => removeDuplicatesGo_sublist cars [],
    fun cars k => ?_⟩
  · have h := dedupInfiniteGo_filter i hi cars []
    simpa [dedupInfinite] using h
  · have h := removeDuplicatesGo_filter k cars []
    simpa [removeDuplicates] using h

/-- Witness for claim C6's amended theorem at a concrete duplicated id. -/
theorem claim6_witness :
    (dedupInfinite [sampleCar "7", sampleCar "7"]).filter
        (fun c => c.id == some "7") =
      ([sampleCar "7", sampleCar "7"].filter (fun c => c.id == some "7")).take 1 :=
  claim6_dedup.2.2.1 [sampleCar "7", sampleCar "7"] "7" (by decide)

/-- Claim C7: the merge-on-store path writes exactly the new records plus
those existing records whose id does not appear among the new records' ids
(the new record wins on every conflicting id), and the stored count is the
merged list's length; with no existing value the new list is written
as-is. -/
theorem claim7_store_merge :
    (∀ (cars existing : List CarProduct) (r : CarProduct),
      r ∈ storeMergedCars cars existing ↔
        (r ∈ cars ∨ (r ∈ existing ∧ r.id ∉ cars.map (fun c => c.id)))) ∧
    (∀ cars existing, (storeCarsValue cars (some existing)).cars =
      storeMergedCars cars existing) ∧
    (∀ cars existing, (storeCarsValue cars (some existing)).totalCars =
      (storeMergedCars cars existing).length) ∧
    (∀ cars, storeCarsValue cars none = { cars := cars, totalCars := cars.length }) := by
  refine ⟨?_, fun _ _ => rfl, fun _ _ => rfl, fun _ => rfl⟩
  intro cars existing r
  simp [storeMergedCars, List.mem_append, List.mem_filter, or_comm]

/-- Claim C8: the page-finalize flush is not protected against double
finalization — `finalizeCurrentProduct` never clears `currentProduct`, so
after the end-of-page flush the next page's first `startProduct` re-runs
finalization on the same in-progress record and pushes it a second time:
the five-event sequence below leaves the same record twice in `products`. -/
theorem claim8_double_finalize :
    (runEvents (mkScraper none) c8Events).products = [c8FinalCar, c8FinalCar] ∧
    c8FinalCar.title ≠ "" ∧ c8FinalCar.link ≠ "" := by
  refine ⟨by decide, by decide, by decide⟩

/-- Claim C9 counterexample: a record whose title carries only a plausible
4-digit year token (no brand or car word) and whose listing link is outside
the autos domain satisfies the claimed predicate but is rejected by the
code, refuting the claimed "if and only if" (the source predicate has no
year disjunct). -/
theorem claim9_counterexample :
    specClaimedValidity c9YearOnlyCar = true ∧
    isValidCarListing c9YearOnlyCar = false ∧
    (finalizeCurrentProduct
      { products := [], limit := none, currentProduct := some c9YearOnlyCar,
        productCount := 1 }).products = [] := by
  refine ⟨by decide, by decide, by decide⟩

/-- Claim C9 (amended): with no limit in the way, a finalized record is
accepted — appended to `products` — if and only if its trimmed title is
non-empty AND its link is non-empty AND (it has a brand keyword OR a
car-word keyword OR its link contains the autos-domain listing pattern); a
plausible year token alone does not qualify.  The spec's navigation
fragment is rejected and its Toyota fragment accepted. -/
theorem claim9_validity :
    (∀ (s : Scraper) (p : CarProduct), s.currentProduct = some p → s.limit = none →
      ((finalizeCurrentProduct s).products =
          s.products ++ [{ p with title := jsTrim p.title }] ↔
        (jsTrim p.title != "" && p.link != "" &&
          isValidCarListing { p with title := jsTrim p.title }) = true)) ∧
    isValidCarListing c9NavCar = false ∧
    specClaimedValidity c9NavCar = false ∧
    isValidCarListing c9ToyotaCar = true ∧
    (finalizeCurrentProduct
      { products := [], limit := none, currentProduct := some c9ToyotaCar,
        productCount := 1 }).products = [c9ToyotaCar] := by
  refine ⟨?_, by decide, by decide, by decide, by decide⟩
  intro s p hcp hl
  unfold finalizeCurrentProduct
  simp only [hcp, hl, limitAllows, Bool.and_true]
  by_cases hab : (jsTrim p.title != "" && p.link != "") = true
  · rw [if_pos hab]
    by_cases hv : isValidCarListing { p with title := jsTrim p.title } = true
    · rw [if_pos hv]
      simp [hab, hv]
    · rw [if_neg hv]
      simp only [Bool.not_eq_true] at hv
      simp [hab, hv]
  · rw [if_neg hab]
    simp only [Bool.not_eq_true] at hab
    simp [hab]

/-- Witness for claim C9's amended theorem at the accepted Toyota record. -/
theorem claim9_witness :
    (finalizeCurrentProduct
      { products := [], limit := none, currentProduct := some c9ToyotaCar,
        productCount := 1 }).products =
      [] ++ [{ c9ToyotaCar with title := jsTrim c9ToyotaCar.title }] :=
  (claim9_validity.1 _ c9ToyotaCar rfl rfl).mpr (by decide)

/-- Claim C10: with a finite constructor limit `n`, no event sequence can
drive the products list past `n` records; `startProduct` refuses to begin a
new record once `n` records have been started, and `finalizeCurrentProduct`
refuses to push once the list holds `n` records. -/
theorem claim10_limit_bound :
    (∀ (n : Nat) (es : List ScrapeEvent),
      ((runEvents (mkScraper (some n)) es).products).length ≤ n) ∧
    (∀ (s : Scraper) (n : Nat), s.limit = some n → n ≤ s.productCount →
      startProduct s = s) ∧
    (∀ (s : Scraper) (n : Nat), s.limit = some n → s.products.length = n →
      (finalizeCurrentProduct s).products = s.products) := by
  refine ⟨?_, ?_, ?_⟩
  · intro n es
    exact runEvents_products_le n es (mkScraper (some n)) rfl (by simp [mkScraper])
  · intro s n hl hc
    unfold startProduct
    simp only [hl]
    rw [if_pos hc]
  · intro s n hl hlen
    unfold finalizeCurrentProduct
    rcases hcp : s.currentProduct with _ | p0
    · simp [hcp]
    · have hla : limitAllows s.limit s.products.length = false := by
        rw [hl, hlen]
        simp [limitAllows]
      simp [hcp, hla]

/-- Witness for claim C10's theorem at a length-zero limit. -/
theorem claim10_witness :
    startProduct (mkScraper (some 0)) = mkScraper (some 0) ∧
    (finalizeCurrentProduct
      { products := [], limit := some 0, currentProduct := some c9ToyotaCar,
        productCount := 1 }).products = [] := by
  constructor
  · exact claim10_limit_bound.2.1 (mkScraper (some 0)) 0 rfl (by decide)
  · exact claim10_limit_bound.2.2 _ 0 rfl rfl

end Cars
